import Mathlib

/-!
Verification of the page-range resolver shared by the merge and split PDF
tools (`src/mergePDF.py`, `src/splitPDF.py`) of the `bin` repository.

The Python code is shallowly embedded: Python strings are Lean `String`s,
the Python builtins the resolver uses (`str.strip`, `str.lower`,
`str.split`, `int`) are modelled by executable Lean functions below, the
Python `set` accumulator is a duplicate-free `List ℕ` with
membership-checked insertion (`sorted(list(s))` becomes an insertion
sort), and `raise ValueError(...)` becomes the `.error` side of an
`Except`.  Distinct raise sites are distinguished by the
constructors of `PageError` (the messages actually produced at each site
are recorded in comments).
-/

namespace Bin

/-! ### Python string primitives -/

/-- Characters removed by Python `str.strip()` (whitespace). -/
def isPySpace (c : Char) : Bool := c.isWhitespace

/-- Drop leading whitespace from a character list. -/
def stripLeft : List Char → List Char
  | [] => []
  | c :: cs => if isPySpace c then stripLeft cs else c :: cs

/-- Models Python `str.strip()`: drop leading and trailing whitespace. -/
def pyStrip (s : String) : String :=
  ⟨stripLeft (stripLeft s.data.reverse).reverse⟩

/-- Models Python `str.lower()` (ASCII case folding; all inputs the tools
care about are ASCII). -/
def pyLower (s : String) : String := ⟨s.data.map Char.toLower⟩

/-- Helper for `pySplitComma`: accumulate the current segment (reversed). -/
def splitCommaAux : List Char → List Char → List (List Char)
  | [], acc => [acc.reverse]
  | c :: cs, acc =>
    if c = ',' then acc.reverse :: splitCommaAux cs []
    else splitCommaAux cs (c :: acc)

/-- Models Python `s.split(',')`: split on every comma, keeping empty
segments (`''.split(',') == ['']`, `'a,,b'.split(',') == ['a','','b']`). -/
def pySplitComma (s : String) : List String :=
  (splitCommaAux s.data []).map fun l => ⟨l⟩

/-- Models Python `s.split('-', 1)` when `'-' in s`: the text before the
first `'-'` and everything after it.  Returns `none` when there is no dash
(the callers only invoke it under an `'-' in part` guard). -/
def splitDashOnce : List Char → Option (List Char × List Char)
  | [] => none
  | c :: cs =>
    if c = '-' then some ([], cs)
    else (splitDashOnce cs).map fun p => (c :: p.1, p.2)

/-- Decimal value of a digit character. -/
def digitVal (c : Char) : Option Nat :=
  if c.isDigit then some (c.toNat - 48) else none

/-- Value of a non-empty all-digit character list, `none` otherwise. -/
def digitsVal (cs : List Char) : Option Nat :=
  match cs with
  | [] => none
  | _ =>
    cs.foldl (fun acc c => acc.bind fun n => (digitVal c).map fun d => 10 * n + d)
      (some 0)

/-- Models Python `int(s)` on a string: surrounding whitespace is ignored,
an optional `+`/`-` sign precedes one or more decimal digits; anything else
raises `ValueError` (`none` here).  (Python's underscore digit grouping is
not modelled; no claim involves it.) -/
def pyInt (s : String) : Option Int :=
  match stripLeft (stripLeft s.data.reverse).reverse with
  | '-' :: cs => (digitsVal cs).map fun n => -(n : Int)
  | '+' :: cs => (digitsVal cs).map fun n => (n : Int)
  | cs => (digitsVal cs).map fun n => (n : Int)

/-! ### The error taxonomy

Every failure in the two resolvers is a Python `ValueError`; the
constructors below record which `raise` site produced it. -/

/-- One constructor per distinct `raise ValueError` site in
`parse_merge_page_string` / `parse_page_string`. -/
inductive PageError where
  /-- "Cannot get 'last' page from an empty PDF." (whole spec is `last`). -/
  | emptyLast : PageError
  /-- "Cannot use 'last' with an empty PDF." (`last` as one comma part). -/
  | emptyLastPart : PageError
  /-- "Invalid page range format: '&lcub;part&rcub;'" — raised both for a
  malformed range and (because the `except ValueError` re-raises) for an
  out-of-bounds or inverted range. -/
  | rangeFormat (part : String) : PageError
  /-- "Invalid page number format: '&lcub;part&rcub;'" — raised both for a
  malformed number and for an out-of-bounds page. -/
  | numberFormat (part : String) : PageError
  /-- "Page string '&lcub;s&rcub;' resulted in no pages." -/
  | emptyResult (s : String) : PageError
deriving DecidableEq, Repr

instance {ε α : Type} [DecidableEq ε] [DecidableEq α] :
    DecidableEq (Except ε α) := fun
  | .ok a, .ok b =>
    if h : a = b then .isTrue (by rw [h]) else .isFalse (by simp [h])
  | .error a, .error b =>
    if h : a = b then .isTrue (by rw [h]) else .isFalse (by simp [h])
  | .ok _, .error _ => .isFalse (by simp)
  | .error _, .ok _ => .isFalse (by simp)

/-! ### The Python `set` of indices

The two resolvers accumulate 0-based indices in a Python `set` and finish
with `sorted(list(indices))`.  The set is modelled as a duplicate-free
`List ℕ` with membership-checked insertion (`set.add`); the final
`sorted(...)` is `List.insertionSort (· ≤ ·)` — on a duplicate-free list
this produces exactly the sorted list of the set's elements, which is what
Python returns whatever the insertion order was. -/

/-- Models `indices.add(x)` on a Python set. -/
def setAdd (l : List ℕ) (x : ℕ) : List ℕ :=
  if x ∈ l then l else x :: l

/-- Models `indices.update(range(start, end + 1))` on a Python set:
add every index from `start` to `endv` inclusive. -/
def setAddRange (l : List ℕ) (start endv : ℕ) : List ℕ :=
  (List.range' start (endv + 1 - start)).foldl setAdd l

/-- Models `sorted(list(indices))`. -/
def setSorted (l : List ℕ) : List ℕ := List.insertionSort (· ≤ ·) l

/-! ### The merge tool's resolver (`src/mergePDF.py`, lines 94-157) -/

/-- The `for part in parts:` loop of `parse_merge_page_string`
(mergePDF.py lines 119-152), accumulating the `indices` set. -/
def processPartsMerge (total_pages : Nat) :
    List String → List ℕ → Except PageError (List ℕ)
  | [], indices => .ok indices
  | p :: parts, indices =>
    let part := pyStrip p
    if part = "" then
      processPartsMerge total_pages parts indices
    else if part = "last" then
      if 0 < total_pages then
        processPartsMerge total_pages parts (setAdd indices (total_pages - 1))
      else .error .emptyLastPart
    else if part.data.contains '-' then
      match splitDashOnce part.data with
      | none => .error (.rangeFormat part)
      | some (start_str, end_str) =>
        match pyInt (pyStrip ⟨start_str⟩), pyInt (pyStrip ⟨end_str⟩) with
        | some sv, some ev =>
          let start : Int := sv - 1
          let endv : Int := ev - 1
          if start < 0 ∨ endv ≥ (total_pages : Int) ∨ start > endv then
            .error (.rangeFormat part)
          else
            processPartsMerge total_pages parts
              (setAddRange indices start.toNat endv.toNat)
        | _, _ => .error (.rangeFormat part)
    else
      match pyInt (pyStrip part) with
      | some pv =>
        let index : Int := pv - 1
        if index < 0 ∨ index ≥ (total_pages : Int) then
          .error (.numberFormat part)
        else
          processPartsMerge total_pages parts (setAdd indices index.toNat)
      | none => .error (.numberFormat part)

/-- `parse_merge_page_string(page_str, total_pages)` from
`src/mergePDF.py`: resolves a page spec (or `None`) against a page count
into a sorted list of 0-based indices, or a `ValueError`. -/
def parse_merge_page_string (page_str : Option String) (total_pages : Nat) :
    Except PageError (List Nat) :=
  match page_str with
  | none =>
    if 0 < total_pages then .ok (List.range total_pages) else .ok []
  | some s =>
    if pyStrip s = "" then
      if 0 < total_pages then .ok (List.range total_pages) else .ok []
    else
      let s' := pyStrip (pyLower s)
      if s' = "last" then
        if 0 < total_pages then .ok [total_pages - 1] else .error .emptyLast
      else
        match processPartsMerge total_pages (pySplitComma s') [] with
        | .error e => .error e
        | .ok indices =>
          let sorted_indices := setSorted indices
          if sorted_indices = [] then .error (.emptyResult s')
          else .ok sorted_indices

example : parse_merge_page_string (some "5,1-3") 10 = .ok [0, 1, 2, 4] := by decide
example : parse_merge_page_string none 0 = .ok [] := by decide
example : parse_merge_page_string (some "  ") 3 = .ok [0, 1, 2] := by decide
example : parse_merge_page_string (some "LAST") 7 = .ok [6] := by decide
example : parse_merge_page_string (some "3-1") 10 = .error (.rangeFormat "3-1") := by decide
example : parse_merge_page_string (some " , ") 5 = .error (.emptyResult ",") := by decide
example : parse_merge_page_string (some "9-12") 10 = .error (.rangeFormat "9-12") := by decide
example : parse_merge_page_string (some "1-3,,5") 10 = .ok [0, 1, 2, 4] := by decide

/-! ### The split tool's resolver (`src/splitPDF.py`, lines 64-128)

`parse_page_string` duplicates the merge tool's loop, additionally
accumulating `friendly_parts` (1-based strings for the summary).  Unlike
the merge version it has no "all pages" branch for an empty spec, and a
whole-spec `last` joins the common sort/emptiness tail instead of
returning early. -/

/-- The `for part in parts:` loop of `parse_page_string`
(splitPDF.py lines 81-119): `indices` set plus `friendly_parts`. -/
def processPartsSplit (total_pages : Nat) :
    List String → List ℕ → List String → Except PageError (List ℕ × List String)
  | [], indices, friendly => .ok (indices, friendly)
  | p :: parts, indices, friendly =>
    let part := pyStrip p
    if part = "" then
      processPartsSplit total_pages parts indices friendly
    else if part = "last" then
      if 0 < total_pages then
        processPartsSplit total_pages parts (setAdd indices (total_pages - 1))
          (friendly ++ [toString total_pages])
      else .error .emptyLastPart
    else if part.data.contains '-' then
      match splitDashOnce part.data with
      | none => .error (.rangeFormat part)
      | some (start_str, end_str) =>
        match pyInt (pyStrip ⟨start_str⟩), pyInt (pyStrip ⟨end_str⟩) with
        | some sv, some ev =>
          let start : Int := sv - 1
          let endv : Int := ev - 1
          if start < 0 ∨ endv ≥ (total_pages : Int) ∨ start > endv then
            .error (.rangeFormat part)
          else
            processPartsSplit total_pages parts
              (setAddRange indices start.toNat endv.toNat)
              (friendly ++ [toString sv ++ "-" ++ toString ev])
        | _, _ => .error (.rangeFormat part)
    else
      match pyInt (pyStrip part) with
      | some pv =>
        let index : Int := pv - 1
        if index < 0 ∨ index ≥ (total_pages : Int) then
          .error (.numberFormat part)
        else
          processPartsSplit total_pages parts (setAdd indices index.toNat)
            (friendly ++ [toString pv])
      | none => .error (.numberFormat part)

/-- `parse_page_string(page_str, total_pages)` from `src/splitPDF.py`:
resolves a page spec into the sorted list of 0-based indices and a
user-friendly 1-based string, or a `ValueError`. -/
def parse_page_string (page_str : String) (total_pages : Nat) :
    Except PageError (List Nat × String) :=
  let p := pyStrip (pyLower page_str)
  let body : Except PageError (List ℕ × List String) :=
    if p = "last" then
      if 0 < total_pages then .ok ([total_pages - 1], [toString total_pages])
      else .error .emptyLast
    else processPartsSplit total_pages (pySplitComma p) [] []
  match body with
  | .error e => .error e
  | .ok (indices, friendly_parts) =>
    let sorted_indices := setSorted indices
    if sorted_indices = [] then .error (.emptyResult page_str)
    else .ok (sorted_indices, String.intercalate ", " friendly_parts)

example : parse_page_string "5,1-3" 10 = .ok ([0, 1, 2, 4], "5, 1-3") := by decide
example : parse_page_string "last" 7 = .ok ([6], "7") := by decide
example : parse_page_string "" 4 = .error (.emptyResult "") := by decide
example : parse_page_string " , " 4 = .error (.emptyResult " , ") := by decide
example : parse_page_string "7-10, 12" 20 = .ok ([6, 7, 8, 9, 11], "7-10, 12") := by decide
example : parse_page_string "last" 0 = .error .emptyLast := by decide

/-! ### The split tool's page-adding loop (`src/splitPDF.py`, lines 163-182)

`split_pdf_from_config` runs `writer.add_page(reader.pages[index])` for
each resolved index; `reader.pages[index]` raises `IndexError` when
`index` is out of range.  Page objects are abstract (`Page`); the reader's
pages are a `List Page` and a successful loop returns the pages copied
into the writer. -/

/-- Models `for index in page_indices: writer.add_page(reader.pages[index])`:
the pages appended to the writer, or `.error ()` at the first
`IndexError`. -/
def add_pages {Page : Type} (rpages : List Page) : List Nat → Except Unit (List Page)
  | [] => .ok []
  | i :: rest =>
    match rpages.get? i with
    | none => .error ()
    | some pg => (add_pages rpages rest).map fun out => pg :: out

/-! ### The merge tool's entry loop (`src/mergePDF.py`, lines 192-225)

One iteration of the `for idx, line_text in enumerate(original_lines)` body
of `merge_pdfs_from_config`, for a line with a parsed config entry: open
the input, reject an empty input, resolve the page spec, and only then add
the outline item and the selected pages to the writer.  The filesystem is
a partial map from filename to the file's pages (`none` = the file is
missing and `PdfReader` raises `FileNotFoundError`). -/

/-- One parsed config line: `&lcub;'filename', 'bookmark', 'pages'&rcub;`
as built by `read_merge_config_from_file`. -/
structure MergeEntry where
  filename : String
  bookmark : Option String
  pages : Option String

/-- The mutable state of the `PdfWriter` that `merge_pdfs_from_config`
accumulates into: outline items (title, target page index) and pages. -/
structure WriterState (Page : Type) where
  outline : List (String × Nat)
  pages : List Page
deriving DecidableEq

/-- The per-entry failures caught at lines 220-225 of mergePDF.py. -/
inductive EntryError where
  /-- `FileNotFoundError` from `PdfReader`. -/
  | fileNotFound : EntryError
  /-- "Input PDF is empty." -/
  | emptyInput : EntryError
  /-- A `ValueError` escaping `parse_merge_page_string`. -/
  | pageSpec (e : PageError) : EntryError
  /-- "No pages selected or specified." -/
  | noPages : EntryError
deriving DecidableEq, Repr

/-- Models `os.path.basename`: the part after the last `/`. -/
def basename (s : String) : String :=
  ⟨(s.data.reverse.takeWhile fun c => c ≠ '/').reverse⟩

/-- Models `os.path.splitext(s)[0]`: everything before the last dot, the
whole string when there is none.  (The special case of dotfiles is not
modelled; no claim involves it.) -/
def splitextRoot (s : String) : String :=
  if s.data.contains '.' then ⟨((s.data.reverse.dropWhile fun c => c ≠ '.').drop 1).reverse⟩
  else s

/-- The bookmark title of lines 205-209: the custom title when it is a
non-empty string (Python truthiness), else the input file's base name
without extension. -/
def bookmarkTitle (e : MergeEntry) : String :=
  match e.bookmark with
  | some t => if t = "" then splitextRoot (basename e.filename) else t
  | none => splitextRoot (basename e.filename)

/-- One iteration of the entry loop of `merge_pdfs_from_config`
(mergePDF.py lines 192-225): returns the writer state after the entry and
the error reported for it, if any.  `fs` maps a filename to the pages of
the file, `none` when the file does not exist.  Page access uses `getD`;
the indices are in range whenever `parse_merge_page_string` succeeds. -/
def processEntry {Page : Type} [Inhabited Page] (fs : String → Option (List Page))
    (w : WriterState Page) (e : MergeEntry) : WriterState Page × Option EntryError :=
  match fs e.filename with
  | none => (w, some .fileNotFound)
  | some rpages =>
    if rpages.length = 0 then (w, some .emptyInput)
    else
      match parse_merge_page_string e.pages rpages.length with
      | .error pe => (w, some (.pageSpec pe))
      | .ok page_indices =>
        if page_indices = [] then (w, some .noPages)
        else
          let bookmark_target_page_index := w.pages.length
          let w1 : WriterState Page :=
            { outline := w.outline ++ [(bookmarkTitle e, bookmark_target_page_index)],
              pages := w.pages ++ page_indices.map fun i => rpages.getD i default }
          (w1, none)

example :
    processEntry (fun _ => some ([10, 20, 30] : List Nat)) ⟨[], []⟩
      ⟨"a.pdf", none, some "2,3"⟩ = (⟨[("a", 0)], [20, 30]⟩, none) := by decide
example :
    processEntry (fun _ => (none : Option (List Nat))) ⟨[("t", 0)], [7]⟩
      ⟨"a.pdf", none, some "2,3"⟩ = (⟨[("t", 0)], [7]⟩, some .fileNotFound) := by
  decide

/-! ### Properties of the set model -/

theorem mem_setAdd {l : List ℕ} {x y : ℕ} : y ∈ setAdd l x ↔ y = x ∨ y ∈ l := by
  simp only [setAdd]
  split
  · rename_i h
    constructor
    · exact fun hy => Or.inr hy
    · rintro (rfl | hy)
      · exact h
      · exact hy
  · simp [List.mem_cons]

theorem nodup_setAdd {l : List ℕ} {x : ℕ} (h : l.Nodup) : (setAdd l x).Nodup := by
  simp only [setAdd]
  split
  · exact h
  · rename_i hx
    exact List.nodup_cons.mpr ⟨hx, h⟩

theorem mem_foldl_setAdd {y : ℕ} :
    ∀ (xs : List ℕ) (l : List ℕ), y ∈ xs.foldl setAdd l ↔ y ∈ l ∨ y ∈ xs
  | [], l => by simp
  | x :: xs, l => by
    rw [List.foldl_cons, mem_foldl_setAdd xs, mem_setAdd, List.mem_cons]
    tauto

theorem nodup_foldl_setAdd :
    ∀ (xs : List ℕ) (l : List ℕ), l.Nodup → (xs.foldl setAdd l).Nodup
  | [], _, h => h
  | x :: xs, l, h => by
    rw [List.foldl_cons]
    exact nodup_foldl_setAdd xs _ (nodup_setAdd h)

theorem mem_setAddRange {l : List ℕ} {s e y : ℕ} :
    y ∈ setAddRange l s e ↔ y ∈ l ∨ (s ≤ y ∧ y < s + (e + 1 - s)) := by
  rw [setAddRange, mem_foldl_setAdd, List.mem_range'_1]

theorem nodup_setAddRange {l : List ℕ} {s e : ℕ} (h : l.Nodup) :
    (setAddRange l s e).Nodup :=
  nodup_foldl_setAdd _ _ h

theorem setSorted_perm (l : List ℕ) : List.Perm (setSorted l) l :=
  List.perm_insertionSort _ l

theorem mem_setSorted {l : List ℕ} {y : ℕ} : y ∈ setSorted l ↔ y ∈ l :=
  (setSorted_perm l).mem_iff

theorem sorted_le_setSorted (l : List ℕ) : (setSorted l).Sorted (· ≤ ·) :=
  List.sorted_insertionSort _ l

theorem sorted_lt_setSorted {l : List ℕ} (h : l.Nodup) :
    (setSorted l).Sorted (· < ·) :=
  List.Sorted.lt_of_le (sorted_le_setSorted l) ((setSorted_perm l).nodup_iff.mpr h)

/-! ### Invariants of the merge loop -/

/-- Generic invariant of the merge loop: a predicate preserved by the two
set insertions (restricted to indices below `total_pages`) holds of the
result whenever the loop succeeds. -/
theorem processPartsMerge_invariant (t : ℕ) (P : List ℕ → Prop)
    (hadd : ∀ l x, P l → x < t → P (setAdd l x))
    (hrange : ∀ l a b, P l → b < t → P (setAddRange l a b)) :
    ∀ (parts : List String) (idx r : List ℕ),
      processPartsMerge t parts idx = .ok r → P idx → P r
  | [], idx, r => by
    intro h hP
    simp only [processPartsMerge] at h
    cases h
    exact hP
  | p :: parts, idx, r => by
    intro h hP
    simp only [processPartsMerge] at h
    split at h
    · exact processPartsMerge_invariant t P hadd hrange parts idx r h hP
    · split at h
      · -- part = "last"
        split at h
        · rename_i ht
          exact processPartsMerge_invariant t P hadd hrange parts _ r h
            (hadd _ _ hP (by omega))
        · exact absurd h (by simp)
      · split at h
        · -- '-' in part: range
          split at h
          · exact absurd h (by simp)
          · rename_i start_str end_str
            split at h
            · rename_i sv ev
              split at h
              · exact absurd h (by simp)
              · rename_i hcond
                refine processPartsMerge_invariant t P hadd hrange parts _ r h
                  (hrange _ _ _ hP ?_)
                omega
            · exact absurd h (by simp)
        · -- single page
          split at h
          · rename_i pv
            split at h
            · exact absurd h (by simp)
            · rename_i hcond
              refine processPartsMerge_invariant t P hadd hrange parts _ r h
                (hadd _ _ hP ?_)
              omega
          · exact absurd h (by simp)

/-- Successful loop runs only produce indices below `total_pages`. -/
theorem processPartsMerge_mem_lt {t : ℕ} {parts : List String} {idx r : List ℕ}
    (h : processPartsMerge t parts idx = .ok r) (hidx : ∀ x ∈ idx, x < t) :
    ∀ x ∈ r, x < t := by
  refine processPartsMerge_invariant t (fun l => ∀ x ∈ l, x < t) ?_ ?_ parts idx r h hidx
  · intro l x hl hx y hy
    rcases mem_setAdd.mp hy with rfl | hy
    · exact hx
    · exact hl y hy
  · intro l a b hl hb y hy
    rcases mem_setAddRange.mp hy with hy | hy
    · exact hl y hy
    · omega

/-- Successful loop runs preserve duplicate-freedom of the index set. -/
theorem processPartsMerge_nodup {t : ℕ} {parts : List String} {idx r : List ℕ}
    (h : processPartsMerge t parts idx = .ok r) (hidx : idx.Nodup) : r.Nodup :=
  processPartsMerge_invariant t (fun l => l.Nodup)
    (fun _ _ hl _ => nodup_setAdd hl) (fun _ _ _ hl _ => nodup_setAddRange hl)
    parts idx r h hidx

/-- The loop only ever grows the index set. -/
theorem processPartsMerge_mono {t : ℕ} {parts : List String} {idx r : List ℕ}
    (h : processPartsMerge t parts idx = .ok r) : ∀ x ∈ idx, x ∈ r := by
  refine processPartsMerge_invariant t (fun l => ∀ x ∈ idx, x ∈ l) ?_ ?_
    parts idx r h (fun x hx => hx)
  · intro l x hl _ y hy
    exact mem_setAdd.mpr (Or.inr (hl y hy))
  · intro l a b hl _ y hy
    exact mem_setAddRange.mpr (Or.inl (hl y hy))

/-- With `total_pages = 0` the loop can only succeed by skipping every
part: the index set comes back unchanged. -/
theorem processPartsMerge_zero {parts : List String} {idx r : List ℕ}
    (h : processPartsMerge 0 parts idx = .ok r) : r = idx :=
  processPartsMerge_invariant 0 (fun l => l = idx)
    (fun _ x _ hx => absurd hx (by omega)) (fun _ _ b _ hb => absurd hb (by omega))
    parts idx r h rfl

/-- Whitespace-only parts are skipped: a list of blank parts leaves the
index set unchanged and succeeds. -/
theorem processPartsMerge_blank {t : ℕ} :
    ∀ (parts : List String) (idx : List ℕ), (∀ p ∈ parts, pyStrip p = "") →
      processPartsMerge t parts idx = .ok idx
  | [], _, _ => rfl
  | p :: parts, idx, h => by
    simp only [processPartsMerge, if_pos (h p (List.mem_cons_self p parts))]
    exact processPartsMerge_blank parts idx fun q hq => h q (List.mem_cons_of_mem p hq)

/-- The loop ignores blank parts entirely: processing a part list is the
same as processing its non-blank parts. -/
theorem processPartsMerge_filter {t : ℕ} :
    ∀ (parts : List String) (idx : List ℕ),
      processPartsMerge t parts idx =
        processPartsMerge t (parts.filter fun p => !decide (pyStrip p = "")) idx
  | [], _ => rfl
  | p :: parts, idx => by
    by_cases hp : pyStrip p = ""
    · have hf : ((p :: parts).filter fun q => !decide (pyStrip q = "")) =
          parts.filter fun q => !decide (pyStrip q = "") := by simp [hp]
      rw [hf]
      simp only [processPartsMerge, if_pos hp]
      exact processPartsMerge_filter parts idx
    · have hf : ((p :: parts).filter fun q => !decide (pyStrip q = "")) =
          p :: parts.filter fun q => !decide (pyStrip q = "") := by simp [hp]
      rw [hf]
      simp only [processPartsMerge, if_neg hp]
      split
      · split
        · exact processPartsMerge_filter parts _
        · rfl
      · split
        · split
          · rfl
          · split
            · split
              · rfl
              · exact processPartsMerge_filter parts _
            · rfl
        · split
          · split
            · rfl
            · exact processPartsMerge_filter parts _
          · rfl

/-- The split tool's loop computes exactly the merge tool's index set (the
extra component is only the friendly display string). -/
theorem processPartsSplit_fst {t : ℕ} :
    ∀ (parts : List String) (idx : List ℕ) (fr : List String),
      (processPartsSplit t parts idx fr).map Prod.fst =
        processPartsMerge t parts idx
  | [], _, _ => rfl
  | p :: parts, idx, fr => by
    simp only [processPartsSplit, processPartsMerge]
    split
    · exact processPartsSplit_fst parts idx fr
    · split
      · split
        · exact processPartsSplit_fst parts _ _
        · rfl
      · split
        · split
          · rfl
          · split
            · split
              · rfl
              · exact processPartsSplit_fst parts _ _
            · rfl
        · split
          · split
            · rfl
            · exact processPartsSplit_fst parts _ _
          · rfl

/-! ### Success inversion for the two resolvers -/

/-- Every successful `parse_merge_page_string` result is strictly sorted
with all indices below `total_pages`. -/
theorem parse_merge_ok_inv {ps : Option String} {t : ℕ} {l : List ℕ}
    (h : parse_merge_page_string ps t = .ok l) :
    List.Sorted (· < ·) l ∧ ∀ i ∈ l, i < t := by
  have hr : List.Sorted (· < ·) (List.range t) := List.sorted_lt_range t
  cases ps with
  | none =>
    simp only [parse_merge_page_string] at h
    split at h
    · cases h; exact ⟨hr, by simp⟩
    · cases h; exact ⟨by simp, by simp⟩
  | some s =>
    simp only [parse_merge_page_string] at h
    split at h
    · split at h
      · cases h; exact ⟨hr, by simp⟩
      · cases h; exact ⟨by simp, by simp⟩
    · split at h
      · split at h
        · rename_i ht
          cases h
          refine ⟨List.sorted_singleton _, ?_⟩
          intro i hi
          simp only [List.mem_singleton] at hi
          omega
        · exact absurd h (by simp)
      · split at h
        · exact absurd h (by simp)
        · rename_i indices heq
          split at h
          · exact absurd h (by simp)
          · cases h
            have hnd : indices.Nodup := processPartsMerge_nodup heq List.nodup_nil
            have hlt := processPartsMerge_mem_lt heq (by simp)
            exact ⟨sorted_lt_setSorted hnd, fun i hi => hlt i (mem_setSorted.mp hi)⟩

/-- Every successful `parse_page_string` index list is strictly sorted
with all indices below `total_pages`. -/
theorem parse_split_ok_inv {s : String} {t : ℕ} {l : List ℕ} {fr : String}
    (h : parse_page_string s t = .ok (l, fr)) :
    List.Sorted (· < ·) l ∧ ∀ i ∈ l, i < t := by
  simp only [parse_page_string] at h
  split at h
  · exact absurd h (by simp)
  · rename_i indices friendly heq
    split at h
    · exact absurd h (by simp)
    · cases h
      have hkey : indices.Nodup ∧ ∀ x ∈ indices, x < t := by
        split at heq
        · split at heq
          · rename_i ht
            rw [Except.ok.injEq, Prod.mk.injEq] at heq
            obtain ⟨h1, _⟩ := heq
            subst h1
            refine ⟨by simp, ?_⟩
            intro x hx
            simp only [List.mem_singleton] at hx
            omega
          · exact absurd heq (by simp)
        · have heqm : processPartsMerge t (pySplitComma (pyStrip (pyLower s))) [] =
              .ok indices := by
            rw [← processPartsSplit_fst, heq]
            rfl
          exact ⟨processPartsMerge_nodup heqm List.nodup_nil,
            processPartsMerge_mem_lt heqm (by simp)⟩
      exact ⟨sorted_lt_setSorted hkey.1, fun i hi => hkey.2 i (mem_setSorted.mp hi)⟩

/-! ### The claims -/

/-- Claim C1: whenever either resolver succeeds, the returned list of
0-based indices is sorted strictly ascending (hence duplicate-free) and
every index is below `total_pages`; in particular `"5,1-3"` with 10 pages
yields `[0,1,2,4]`, never `[4,0,1,2]`. -/
theorem C1_resolved_sorted_dedup_bounded :
    (∀ (ps : Option String) (t : ℕ) (l : List ℕ),
        parse_merge_page_string ps t = .ok l →
        List.Sorted (· < ·) l ∧ ∀ i ∈ l, i < t) ∧
    (∀ (s : String) (t : ℕ) (l : List ℕ) (fr : String),
        parse_page_string s t = .ok (l, fr) →
        List.Sorted (· < ·) l ∧ ∀ i ∈ l, i < t) ∧
    parse_merge_page_string (some "5,1-3") 10 = .ok [0, 1, 2, 4] ∧
    parse_page_string "5,1-3" 10 = .ok ([0, 1, 2, 4], "5, 1-3") :=
  ⟨fun _ _ _ h => parse_merge_ok_inv h, fun _ _ _ _ h => parse_split_ok_inv h,
    by decide, by decide⟩

/-- Claim C1, witness: the general statement applied to `"5,1-3"` with 10
pages. -/
theorem C1_resolved_sorted_dedup_bounded_witness :
    List.Sorted (· < ·) [0, 1, 2, 4] ∧ ∀ i ∈ [0, 1, 2, 4], i < 10 :=
  C1_resolved_sorted_dedup_bounded.1 (some "5,1-3") 10 [0, 1, 2, 4] (by decide)

/-- Claim C2: for every `total_pages`, an absent (`None`) or empty/blank
specification resolves to exactly `[0, 1, ..., total_pages - 1]`; with
`total_pages = 0` this is the empty list, returned as a result, not an
error. -/
theorem C2_empty_spec_all_pages :
    (∀ t : ℕ, parse_merge_page_string none t = .ok (List.range t)) ∧
    (∀ (t : ℕ) (s : String), pyStrip s = "" →
        parse_merge_page_string (some s) t = .ok (List.range t)) ∧
    parse_merge_page_string none 0 = .ok [] ∧
    parse_merge_page_string (some " ") 0 = .ok [] := by
  have hnone : ∀ t : ℕ, parse_merge_page_string none t = .ok (List.range t) := by
    intro t
    simp only [parse_merge_page_string]
    split
    · rfl
    · rename_i ht
      have ht0 : t = 0 := by omega
      subst ht0
      rfl
  refine ⟨hnone, ?_, by decide, by decide⟩
  intro t s hs
  simp only [parse_merge_page_string, if_pos hs]
  split
  · rfl
  · rename_i ht
    have ht0 : t = 0 := by omega
    subst ht0
    rfl

/-- Claim C2, witness: the blank-spec statement applied to `"  "` with 5
pages. -/
theorem C2_empty_spec_all_pages_witness :
    parse_merge_page_string (some "  ") 5 = .ok (List.range 5) :=
  C2_empty_spec_all_pages.2.1 5 "  " (by decide)

/-- Claim C3: a comma part that is a single integer `N` contributes index
`N - 1` and fails (with the out-of-range `ValueError`) exactly when
`N < 1` or `N > total_pages`; a part that is a range `A-B` of integers
contributes the inclusive indices `A-1 .. B-1` and fails exactly when
`A < 1`, `B > total_pages`, or `A > B`.  Stated on one loop step of the
merge resolver; the last conjunct transfers it to the split resolver,
whose loop computes the identical index set. -/
theorem C3_part_semantics :
    (∀ (p : String) (t : ℕ) (idx : List ℕ) (N : Int),
      (pyStrip p).data.contains '-' = false →
      pyStrip p ≠ "" → pyStrip p ≠ "last" →
      pyInt (pyStrip (pyStrip p)) = some N →
      ((N < 1 ∨ (t : Int) < N) →
        processPartsMerge t [p] idx = .error (.numberFormat (pyStrip p))) ∧
      (¬(N < 1 ∨ (t : Int) < N) →
        processPartsMerge t [p] idx = .ok (setAdd idx (N - 1).toNat))) ∧
    (∀ (p : String) (t : ℕ) (idx : List ℕ) (a b : List Char) (A B : Int),
      (pyStrip p).data.contains '-' = true →
      splitDashOnce (pyStrip p).data = some (a, b) →
      pyInt (pyStrip ⟨a⟩) = some A → pyInt (pyStrip ⟨b⟩) = some B →
      ((A < 1 ∨ (t : Int) < B ∨ B < A) →
        processPartsMerge t [p] idx = .error (.rangeFormat (pyStrip p))) ∧
      (¬(A < 1 ∨ (t : Int) < B ∨ B < A) →
        processPartsMerge t [p] idx =
          .ok (setAddRange idx (A - 1).toNat (B - 1).toNat))) ∧
    (∀ (p : String) (t : ℕ) (idx : List ℕ) (fr : List String),
      (processPartsSplit t [p] idx fr).map Prod.fst =
        processPartsMerge t [p] idx) := by
  refine ⟨?_, ?_, fun p t idx fr => processPartsSplit_fst [p] idx fr⟩
  · intro p t idx N hd hne hnl hint
    have hd' : ¬(pyStrip p).data.contains '-' = true := by
      rw [hd]
      exact Bool.false_ne_true
    constructor
    · intro hcond
      simp only [processPartsMerge, if_neg hne, if_neg hnl, if_neg hd', hint]
      rw [if_pos (by omega)]
    · intro hcond
      simp only [processPartsMerge, if_neg hne, if_neg hnl, if_neg hd', hint]
      rw [if_neg (by omega)]
  · intro p t idx a b A B hd hsplit hA hB
    have hne : pyStrip p ≠ "" := by
      intro h
      rw [h] at hd
      exact absurd hd (by decide)
    have hnl : pyStrip p ≠ "last" := by
      intro h
      rw [h] at hd
      exact absurd hd (by decide)
    constructor
    · intro hcond
      simp only [processPartsMerge, if_neg hne, if_neg hnl, if_pos hd, hsplit, hA, hB]
      rw [if_pos (by omega)]
    · intro hcond
      simp only [processPartsMerge, if_neg hne, if_neg hnl, if_pos hd, hsplit, hA, hB]
      rw [if_neg (by omega)]

/-- Claim C3, witness: part `"5"` with 10 pages contributes index 4; part
`"9-12"` with 10 pages fails (12 > 10). -/
theorem C3_part_semantics_witness :
    processPartsMerge 10 ["5"] [] = .ok (setAdd [] ((5 : Int) - 1).toNat) ∧
    processPartsMerge 10 ["9-12"] [] = .error (.rangeFormat "9-12") :=
  ⟨(C3_part_semantics.1 "5" 10 [] 5 (by decide) (by decide) (by decide)
      (by decide)).2 (by decide),
   (C3_part_semantics.2.1 "9-12" 10 [] ['9'] ['1', '2'] 9 12 (by decide)
      (by decide) (by decide) (by decide)).1 (by decide)⟩

/-- Claim C4: a specification equal to the token `last` in any letter case
(`"last"`, `"LAST"`, `"Last"`) resolves to the single index
`total_pages - 1` when the document has pages, and fails with the
empty-document error when `total_pages = 0`, in both tools. -/
theorem C4_last_token :
    ∀ (s : String) (t : ℕ), pyStrip s ≠ "" → pyStrip (pyLower s) = "last" →
      (0 < t →
        parse_merge_page_string (some s) t = .ok [t - 1] ∧
        parse_page_string s t = .ok ([t - 1], toString t)) ∧
      (t = 0 →
        parse_merge_page_string (some s) t = .error .emptyLast ∧
        parse_page_string s t = .error .emptyLast) := by
  intro s t h1 h2
  constructor
  · intro ht
    constructor
    · simp only [parse_merge_page_string, if_neg h1, if_pos h2, if_pos ht]
    · simp only [parse_page_string, if_pos h2, if_pos ht]
      rfl
  · intro ht
    subst ht
    constructor
    · simp only [parse_merge_page_string, if_neg h1, if_pos h2]
      rfl
    · simp only [parse_page_string, if_pos h2]
      rfl

/-- Claim C4, witness: `"LAST"` with 7 pages yields index 6 in both tools;
`"Last"` with 0 pages fails with the empty-document error in both. -/
theorem C4_last_token_witness :
    (parse_merge_page_string (some "LAST") 7 = .ok [6] ∧
      parse_page_string "LAST" 7 = .ok ([6], "7")) ∧
    (parse_merge_page_string (some "Last") 0 = .error .emptyLast ∧
      parse_page_string "Last" 0 = .error .emptyLast) :=
  ⟨(C4_last_token "LAST" 7 (by decide) (by decide)).1 (by decide),
   (C4_last_token "Last" 0 (by decide) (by decide)).2 rfl⟩

/-- Claim C5, counterexample: the two resolvers do not behave identically
on every specification string — on the empty spec with one page the merge
tool returns all pages while the split tool fails. -/
theorem C5_counterexample :
    parse_merge_page_string (some "") 1 = .ok [0] ∧
    parse_page_string "" 1 = .error (.emptyResult "") := by decide

/-- Claim C5 (amended): for every specification whose stripped form is
non-empty, the two resolvers agree — either both fail, or both succeed
with the same list of 0-based indices.  (They differ exactly on
empty/whitespace-only specs, where the merge tool returns all pages and
the split tool fails.) -/
theorem C5_amended_agree :
    ∀ (s : String) (t : ℕ), pyStrip s ≠ "" →
      (∃ e e', parse_merge_page_string (some s) t = .error e ∧
          parse_page_string s t = .error e') ∨
      (∃ l fr, parse_merge_page_string (some s) t = .ok l ∧
          parse_page_string s t = .ok (l, fr)) := by
  intro s t h1
  by_cases h2 : pyStrip (pyLower s) = "last"
  · by_cases ht : 0 < t
    · right
      refine ⟨[t - 1], toString t, ?_, ?_⟩
      · simp only [parse_merge_page_string, if_neg h1, if_pos h2, if_pos ht]
      · simp only [parse_page_string, if_pos h2, if_pos ht]
        rfl
    · left
      refine ⟨.emptyLast, .emptyLast, ?_, ?_⟩
      · simp only [parse_merge_page_string, if_neg h1, if_pos h2, if_neg ht]
      · simp only [parse_page_string, if_pos h2, if_neg ht]
  · cases hloop : processPartsSplit t (pySplitComma (pyStrip (pyLower s))) [] [] with
    | error e =>
      have hm : processPartsMerge t (pySplitComma (pyStrip (pyLower s))) [] =
          .error e := by
        rw [← processPartsSplit_fst, hloop]
        rfl
      left
      refine ⟨e, e, ?_, ?_⟩
      · simp only [parse_merge_page_string, if_neg h1, if_neg h2, hm]
      · simp only [parse_page_string, if_neg h2, hloop]
    | ok pr =>
      obtain ⟨indices, friendly⟩ := pr
      have hm : processPartsMerge t (pySplitComma (pyStrip (pyLower s))) [] =
          .ok indices := by
        rw [← processPartsSplit_fst, hloop]
        rfl
      by_cases hemp : setSorted indices = []
      · left
        refine ⟨.emptyResult (pyStrip (pyLower s)), .emptyResult s, ?_, ?_⟩
        · simp only [parse_merge_page_string, if_neg h1, if_neg h2, hm, if_pos hemp]
        · simp only [parse_page_string, if_neg h2, hloop, if_pos hemp]
      · right
        refine ⟨setSorted indices, String.intercalate ", " friendly, ?_, ?_⟩
        · simp only [parse_merge_page_string, if_neg h1, if_neg h2, hm, if_neg hemp]
        · simp only [parse_page_string, if_neg h2, hloop, if_neg hemp]

/-- Claim C5 (amended), witness: the agreement applied to `"5,1-3"` with
10 pages. -/
theorem C5_amended_agree_witness :
    (∃ e e', parse_merge_page_string (some "5,1-3") 10 = .error e ∧
        parse_page_string "5,1-3" 10 = .error e') ∨
    (∃ l fr, parse_merge_page_string (some "5,1-3") 10 = .ok l ∧
        parse_page_string "5,1-3" 10 = .ok (l, fr)) :=
  C5_amended_agree "5,1-3" 10 (by decide)

/-- Claim C6: against an empty document (`total_pages = 0`) every
non-whitespace specification fails, in both tools. -/
theorem C6_zero_pages_nonempty_spec :
    ∀ s : String, pyStrip s ≠ "" →
      (∃ e, parse_merge_page_string (some s) 0 = .error e) ∧
      (∃ e, parse_page_string s 0 = .error e) := by
  intro s h1
  by_cases h2 : pyStrip (pyLower s) = "last"
  · constructor
    · refine ⟨.emptyLast, ?_⟩
      simp only [parse_merge_page_string, if_neg h1, if_pos h2]
      rfl
    · refine ⟨.emptyLast, ?_⟩
      simp only [parse_page_string, if_pos h2]
      rfl
  · cases hloop : processPartsSplit 0 (pySplitComma (pyStrip (pyLower s))) [] [] with
    | error e =>
      have hm : processPartsMerge 0 (pySplitComma (pyStrip (pyLower s))) [] =
          .error e := by
        rw [← processPartsSplit_fst, hloop]
        rfl
      constructor
      · exact ⟨e, by simp only [parse_merge_page_string, if_neg h1, if_neg h2, hm]⟩
      · exact ⟨e, by simp only [parse_page_string, if_neg h2, hloop]⟩
    | ok pr =>
      obtain ⟨indices, friendly⟩ := pr
      have hm : processPartsMerge 0 (pySplitComma (pyStrip (pyLower s))) [] =
          .ok indices := by
        rw [← processPartsSplit_fst, hloop]
        rfl
      have hz : indices = [] := processPartsMerge_zero hm
      subst hz
      constructor
      · refine ⟨.emptyResult (pyStrip (pyLower s)), ?_⟩
        simp only [parse_merge_page_string, if_neg h1, if_neg h2, hm]
        rfl
      · refine ⟨.emptyResult s, ?_⟩
        simp only [parse_page_string, if_neg h2, hloop]
        rfl

/-- Claim C6, witness: spec `"1"` against 0 pages fails in both tools. -/
theorem C6_zero_pages_nonempty_spec_witness :
    (∃ e, parse_merge_page_string (some "1") 0 = .error e) ∧
    (∃ e, parse_page_string "1" 0 = .error e) :=
  C6_zero_pages_nonempty_spec "1" (by decide)

/-- Claim C7, counterexample: a successful resolution can return the empty
selection — an absent spec against a zero-page document yields `.ok []`. -/
theorem C7_counterexample :
    ¬ (∀ (ps : Option String) (t : ℕ) (l : List ℕ),
        parse_merge_page_string ps t = .ok l → l ≠ []) :=
  fun h => h none 0 [] (by decide) rfl

/-- Claim C7 (amended): a successful resolution is non-empty whenever the
document has pages; the only empty successes are empty/absent specs
against a zero-page document (and the split tool's resolver never returns
an empty selection at all). -/
theorem C7_amended_nonempty :
    (∀ (ps : Option String) (t : ℕ) (l : List ℕ),
        parse_merge_page_string ps t = .ok l → 0 < t → l ≠ []) ∧
    (∀ (ps : Option String) (l : List ℕ),
        parse_merge_page_string ps 0 = .ok l →
        l = [] ∧ (ps = none ∨ ∃ s, ps = some s ∧ pyStrip s = "")) ∧
    (∀ (s : String) (t : ℕ) (l : List ℕ) (fr : String),
        parse_page_string s t = .ok (l, fr) → l ≠ []) := by
  refine ⟨?_, ?_, ?_⟩
  · intro ps t l h ht
    cases ps with
    | none =>
      simp only [parse_merge_page_string, if_pos ht] at h
      cases h
      simp only [ne_eq, List.range_eq_nil]
      omega
    | some s =>
      simp only [parse_merge_page_string] at h
      split at h
      · cases h
        simp only [ne_eq, List.range_eq_nil]
        omega
      · split at h
        · cases h
          exact List.cons_ne_nil _ _
        · split at h
          · exact absurd h (by simp)
          · split at h
            · exact absurd h (by simp)
            · rename_i hemp
              cases h
              exact hemp
  · intro ps l h
    cases ps with
    | none =>
      simp only [parse_merge_page_string] at h
      split at h
      · omega
      · cases h
        exact ⟨rfl, Or.inl rfl⟩
    | some s =>
      simp only [parse_merge_page_string] at h
      split at h
      · rename_i hb
        split at h
        · omega
        · cases h
          exact ⟨rfl, Or.inr ⟨s, rfl, hb⟩⟩
      · split at h
        · split at h
          · omega
          · exact absurd h (by simp)
        · split at h
          · exact absurd h (by simp)
          · rename_i indices heq
            split at h
            · exact absurd h (by simp)
            · rename_i hemp
              cases h
              have hz : indices = [] := processPartsMerge_zero heq
              subst hz
              exact absurd rfl hemp
  · intro s t l fr h
    simp only [parse_page_string] at h
    split at h
    · exact absurd h (by simp)
    · rename_i indices friendly heq
      split at h
      · exact absurd h (by simp)
      · rename_i hemp
        cases h
        exact hemp

/-- Claim C7 (amended), witness: with one page, a successful resolution of
the absent spec is non-empty. -/
theorem C7_amended_nonempty_witness : ([0] : List ℕ) ≠ [] :=
  C7_amended_nonempty.1 none 1 [0] (by decide) (by decide)

/-- Claim C8: whitespace-only parts between commas are silently skipped —
`"1-3,,5"` resolves exactly like `"1-3,5"` for every `total_pages` — and
a non-empty specification all of whose comma parts are whitespace-only
fails with the empty-result error. -/
theorem C8_blank_parts_skipped :
    (∀ t : ℕ, parse_merge_page_string (some "1-3,,5") t =
        parse_merge_page_string (some "1-3,5") t) ∧
    (∀ (s : String) (t : ℕ), pyStrip s ≠ "" →
      (∀ p ∈ pySplitComma (pyStrip (pyLower s)), pyStrip p = "") →
      parse_merge_page_string (some s) t =
        .error (.emptyResult (pyStrip (pyLower s)))) := by
  constructor
  · intro t
    have e1 : parse_merge_page_string (some "1-3,,5") t =
        match processPartsMerge t ["1-3", "", "5"] [] with
        | .error e => .error e
        | .ok indices =>
          if setSorted indices = [] then .error (.emptyResult "1-3,,5")
          else .ok (setSorted indices) := rfl
    have e2 : parse_merge_page_string (some "1-3,5") t =
        match processPartsMerge t ["1-3", "5"] [] with
        | .error e => .error e
        | .ok indices =>
          if setSorted indices = [] then .error (.emptyResult "1-3,5")
          else .ok (setSorted indices) := rfl
    have hfilter : processPartsMerge t ["1-3", "", "5"] [] =
        processPartsMerge t ["1-3", "5"] [] := by
      rw [processPartsMerge_filter ["1-3", "", "5"] [],
        processPartsMerge_filter ["1-3", "5"] []]
      congr 1
    rw [e1, e2, hfilter]
    cases hloop : processPartsMerge t ["1-3", "5"] [] with
    | error e => rfl
    | ok r =>
      have h0 : (0 : ℕ) ∈ r := by
        have hstep : processPartsMerge t ["1-3", "5"] [] =
            if ((1 : Int) - 1) < 0 ∨ ((3 : Int) - 1) ≥ (t : Int) ∨
                ((1 : Int) - 1) > ((3 : Int) - 1) then
              .error (.rangeFormat "1-3")
            else
              processPartsMerge t ["5"]
                (setAddRange [] ((1 : Int) - 1).toNat ((3 : Int) - 1).toNat) := rfl
        rw [hstep] at hloop
        split at hloop
        · exact absurd hloop (by simp)
        · exact processPartsMerge_mono hloop 0 (by decide)
      have hne : setSorted r ≠ [] := by
        intro hh
        have h0s : (0 : ℕ) ∈ setSorted r := mem_setSorted.mpr h0
        rw [hh] at h0s
        exact absurd h0s (List.not_mem_nil 0)
      simp only [if_neg hne]
  · intro s t h1 hblank
    have h2 : pyStrip (pyLower s) ≠ "last" := by
      intro hl
      have hmem : pyStrip "last" = "" := by
        apply hblank
        rw [hl]
        decide
      exact absurd hmem (by decide)
    simp only [parse_merge_page_string, if_neg h1, if_neg h2,
      processPartsMerge_blank (pySplitComma (pyStrip (pyLower s))) [] hblank]
    rfl

/-- Claim C8, witness: the all-blank-parts statement applied to `" , "`
with 5 pages. -/
theorem C8_blank_parts_skipped_witness :
    parse_merge_page_string (some " , ") 5 = .error (.emptyResult ",") :=
  C8_blank_parts_skipped.2 " , " 5 (by decide) (by decide)

/-- Claim C9: whenever the split tool's resolver succeeds against the open
reader's page count, every resolved index is strictly below that count, so
the `writer.add_page(reader.pages[index])` loop never raises `IndexError`
(the handler is unreachable). -/
theorem C9_add_pages_in_range :
    ∀ {Page : Type} (rpages : List Page) (s : String) (l : List ℕ) (fr : String),
      parse_page_string s rpages.length = .ok (l, fr) →
      (∀ i ∈ l, i < rpages.length) ∧ ∃ out, add_pages rpages l = .ok out := by
  intro Page rpages s l fr h
  have hbound := (parse_split_ok_inv h).2
  refine ⟨hbound, ?_⟩
  clear h
  induction l with
  | nil => exact ⟨[], rfl⟩
  | cons i rest ih =>
    have hi : i < rpages.length := hbound i (List.mem_cons_self i rest)
    obtain ⟨out, hout⟩ := ih fun j hj => hbound j (List.mem_cons_of_mem i hj)
    cases hget : rpages.get? i with
    | none =>
      rw [List.get?_eq_none] at hget
      omega
    | some pg =>
      refine ⟨pg :: out, ?_⟩
      simp only [add_pages, hget, hout]
      rfl

/-- Claim C9, witness: the statement applied to a three-page reader and
the spec `"1-2"`. -/
theorem C9_add_pages_in_range_witness :
    (∀ i ∈ [0, 1], i < List.length [10, 20, 30]) ∧
    ∃ out, add_pages [10, 20, 30] [0, 1] = .ok out :=
  C9_add_pages_in_range [10, 20, 30] "1-2" [0, 1] "1-2" (by decide)

/-- Claim C10: when processing one merge configuration entry fails — the
input file is missing, the input PDF is empty, or the page specification
fails to resolve — the writer is left exactly as it was: no outline item
and no page is added, because resolution completes before any mutation of
the writer. -/
theorem C10_failed_entry_leaves_writer :
    ∀ {Page : Type} [Inhabited Page] (fs : String → Option (List Page))
      (w w' : WriterState Page) (e : MergeEntry) (err : EntryError),
      processEntry fs w e = (w', some err) → w' = w := by
  intro Page _ fs w w' e err h
  simp only [processEntry] at h
  split at h
  · cases h
    rfl
  · split at h
    · cases h
      rfl
    · split at h
      · cases h
        rfl
      · split at h
        · cases h
          rfl
        · cases h

/-- Claim C10, witness: a missing input file leaves a non-trivial writer
state untouched. -/
theorem C10_failed_entry_leaves_writer_witness :
    (⟨[("t", 0)], [7]⟩ : WriterState Nat) = ⟨[("t", 0)], [7]⟩ :=
  C10_failed_entry_leaves_writer (fun _ => none) ⟨[("t", 0)], [7]⟩
    ⟨[("t", 0)], [7]⟩ ⟨"a.pdf", none, some "2,3"⟩ .fileNotFound (by decide)

end Bin
